import Mathlib

/-!
Shallow embedding of the session/account manager (`src/state/session` provider)
and the image-model dimension arithmetic (`ImageModel`) of the social-app
client, together with proofs about the specified properties.

JavaScript `x || y` on strings treats the empty string as falsy; the helpers
`strOr`, `optStrOr` and `optBoolOr` reproduce that semantics. JavaScript
numbers in the image-dimension arithmetic are modelled as rationals.
-/

namespace SessionSpec

/-- The session data reported by the backend API client (`agent.session`),
with the optionality visible at the use sites (`session?.email` etc.). -/
structure AgentSession where
  did : String
  handle : String
  email : Option String
  emailConfirmed : Option Bool
  accessJwt : Option String
  refreshJwt : Option String
deriving Repr, DecidableEq

/-- One stored account (`SessionAccount` / `persisted.PersistedAccount`). -/
structure SessionAccount where
  service : String
  did : String
  handle : String
  email : Option String
  emailConfirmed : Bool
  refreshJwt : Option String
  accessJwt : Option String
deriving Repr, DecidableEq

/-- The provider's React state (`SessionState`). -/
structure SessionState where
  isInitialLoad : Bool
  isSwitchingAccounts : Bool
  accounts : List SessionAccount
  currentAccount : Option SessionAccount
deriving Repr, DecidableEq

/-- The module-level `__globalAgent`: either `PUBLIC_BSKY_AGENT` or an agent
established by `createAccount` / `login` / `initSession`. -/
inductive ActiveAgent where
  | publicAgent
  | established (service : String) (session : Option AgentSession)
deriving Repr, DecidableEq

/-- Session state together with the module-level active agent. -/
structure World where
  state : SessionState
  agent : ActiveAgent
deriving Repr, DecidableEq

/-- Observable outcome of an agent network call: its `service` and the
`agent.session` field after the call returned. -/
structure AgentResult where
  service : String
  session : Option AgentSession
deriving Repr, DecidableEq

/-- Errors surfaced by the session operations: a network failure of the
backend call, or the `failed to establish a session` error thrown when the
call returned but `agent.session` is absent. -/
inductive SessionError where
  | network
  | establishment (op : String)
deriving Repr, DecidableEq

/-- JS `new || old` where `new` is `String | undefined` and `old` a `String`:
the empty string and `undefined` are falsy. -/
def strOr (fresh : Option String) (old : String) : String :=
  match fresh with
  | some s => if s = "" then old else s
  | none => old

/-- JS `new || old` where both sides are `String | undefined`. -/
def optStrOr (fresh : Option String) (old : Option String) : Option String :=
  match fresh with
  | some s => if s = "" then old else some s
  | none => old

/-- JS `new || old` where `new` is `boolean | undefined` and `old` a boolean. -/
def optBoolOr (fresh : Option Bool) (old : Bool) : Bool :=
  (fresh.getD false) || old

/-- Outcome of one invocation of the handler returned by
`createPersistSessionHandler`: the computed `expired` flag, the reconciled
`refreshedAccount`, and how many times `emitSessionDropped` fired. -/
structure PersistOutcome where
  expired : Bool
  refreshedAccount : SessionAccount
  sessionDroppedEmits : Nat
deriving Repr, DecidableEq

/-- The body of `createPersistSessionHandler`'s returned `persistSession`
function: classifies the event, builds the reconciled account (tokens taken
from the new session only; identity fields falling back to the prior
account), and emits the session-dropped notification when expired. -/
def persistSession (account : SessionAccount) (event : String)
    (session : Option AgentSession) : PersistOutcome :=
  let expired := !(event == "create" || event == "update")
  let refreshedAccount : SessionAccount :=
    { service := account.service
      did := strOr (session.map (·.did)) account.did
      handle := strOr (session.map (·.handle)) account.handle
      email := optStrOr (session.bind (·.email)) account.email
      emailConfirmed := optBoolOr (session.bind (·.emailConfirmed)) account.emailConfirmed
      refreshJwt := session.bind (·.refreshJwt)
      accessJwt := session.bind (·.accessJwt) }
  { expired := expired
    refreshedAccount := refreshedAccount
    sessionDroppedEmits := if expired then 1 else 0 }

/-- `upsertAccount`: place `account` at the head of the roster, dropping any
previous entry with the same `did`; make it current, unless `expired`, in
which case the current account is unset. -/
def upsertAccount (account : SessionAccount) (expired : Bool)
    (s : SessionState) : SessionState :=
  { s with
    currentAccount := if expired then none else some account
    accounts := account :: s.accounts.filter (fun a => a.did ≠ account.did) }

/-- The registered persist-session callback: run the handler, then
`upsertAccount refreshedAccount expired`. Returns the new state and the
number of session-dropped emissions. -/
def persistCallbackStep (account : SessionAccount) (event : String)
    (session : Option AgentSession) (s : SessionState) : SessionState × Nat :=
  let out := persistSession account event session
  (upsertAccount out.refreshedAccount out.expired s, out.sessionDroppedEmits)

/-- The account record built by `createAccount` from the established session
(`emailConfirmed` is hard-coded `false` for brand-new accounts). -/
def accountFromCreate (r : AgentResult) (sess : AgentSession) : SessionAccount :=
  { service := r.service
    did := sess.did
    handle := sess.handle
    email := sess.email
    emailConfirmed := false
    refreshJwt := sess.refreshJwt
    accessJwt := sess.accessJwt }

/-- The account record built by `login` and `initSession` from the
established session (`emailConfirmed` taken from the session, `|| false`). -/
def accountFromSession (r : AgentResult) (sess : AgentSession) : SessionAccount :=
  { service := r.service
    did := sess.did
    handle := sess.handle
    email := sess.email
    emailConfirmed := sess.emailConfirmed.getD false
    refreshJwt := sess.refreshJwt
    accessJwt := sess.accessJwt }

/-- `createAccount`: the agent call either throws (network), or returns with
`agent.session` inspected; no session means an establishment error thrown
before any state mutation; otherwise the new account is upserted as current
and the agent installed as the active one. -/
def createAccount (call : Except Unit AgentResult) (w : World) :
    World × Option SessionError :=
  match call with
  | .error _ => (w, some .network)
  | .ok r =>
    match r.session with
    | none => (w, some (.establishment "createAccount"))
    | some sess =>
      let account := accountFromCreate r sess
      ({ state := upsertAccount account false w.state
         agent := .established r.service r.session }, none)

/-- `login`: same shape as `createAccount`, with `emailConfirmed` taken from
the session. -/
def login (call : Except Unit AgentResult) (w : World) :
    World × Option SessionError :=
  match call with
  | .error _ => (w, some .network)
  | .ok r =>
    match r.session with
    | none => (w, some (.establishment "login"))
    | some sess =>
      let account := accountFromSession r sess
      ({ state := upsertAccount account false w.state
         agent := .established r.service r.session }, none)

/-- `initSession account`: resume from stored tokens (`call` is the net
outcome of `networkRetry(3, resumeSession)` plus the resulting
`agent.session`); an establishment error is thrown when no session results;
on success the fresh reconciled account is upserted as current. The
`account` argument feeds only the resume-call arguments and the handler
closure, not the state computation. -/
def initSession (account : SessionAccount) (call : Except Unit AgentResult)
    (w : World) : World × Option SessionError :=
  match call with
  | .error _ => (w, some .network)
  | .ok r =>
    match r.session with
    | none => (w, some (.establishment "initSession"))
    | some sess =>
      let freshAccount := accountFromSession r sess
      ({ state := upsertAccount freshAccount false w.state
         agent := .established r.service r.session }, none)

/-- `resumeSession account?`: try `initSession` when an account is given,
swallow (log) any failure, and in the `finally` block clear `isInitialLoad`.
The `Nat` component counts executions of the `finally` assignment. -/
def resumeSession (account : Option SessionAccount)
    (call : Except Unit AgentResult) (w : World) :
    World × Option SessionError × Nat :=
  match account with
  | none => ({ w with state := { w.state with isInitialLoad := false } }, none, 1)
  | some a =>
    let res := initSession a call w
    ({ res.1 with state := { res.1.state with isInitialLoad := false } }, none, 1)

/-- `clearCurrentAccount`: swap the active agent for the public one and unset
`currentAccount`, leaving the roster untouched. -/
def clearCurrentAccount (w : World) : World :=
  { state := { w.state with currentAccount := none }
    agent := .publicAgent }

/-- `logout`: `clearCurrentAccount`, then strip both tokens from every
account in the roster. -/
def logout (w : World) : World :=
  let w1 := clearCurrentAccount w
  { w1 with
    state := { w1.state with
      accounts := w1.state.accounts.map
        (fun a => { a with refreshJwt := none, accessJwt := none }) } }

/-- `removeAccount`: drop the account with the matching `did` from the
roster; `currentAccount` is not touched. -/
def removeAccount (account : SessionAccount) (s : SessionState) : SessionState :=
  { s with accounts := s.accounts.filter (fun a => a.did ≠ account.did) }

/-- The partial account accepted by `updateCurrentAccount`. -/
structure AccountPatch where
  handle : Option String
  email : Option String
  emailConfirmed : Option Bool
deriving Repr, DecidableEq

/-- `updateCurrentAccount`: patch handle/email/emailConfirmed on the current
account (no-op when there is none) and republish it at the head. -/
def updateCurrentAccount (patch : AccountPatch) (s : SessionState) : SessionState :=
  match s.currentAccount with
  | none => s
  | some currentAccount =>
    let updatedAccount : SessionAccount :=
      { currentAccount with
        handle := strOr patch.handle currentAccount.handle
        email := optStrOr patch.email currentAccount.email
        emailConfirmed := patch.emailConfirmed.getD currentAccount.emailConfirmed }
    { s with
      currentAccount := some updatedAccount
      accounts := updatedAccount ::
        s.accounts.filter (fun a => a.did ≠ currentAccount.did) }

/-- `selectAccount`: set `isSwitchingAccounts`, run `initSession`, clear the
flag on success; on failure clear the flag and rethrow. -/
def selectAccount (account : SessionAccount) (call : Except Unit AgentResult)
    (w : World) : World × Option SessionError :=
  let w1 : World := { w with state := { w.state with isSwitchingAccounts := true } }
  let res := initSession account call w1
  ({ res.1 with state := { res.1.state with isSwitchingAccounts := false } }, res.2)

/-- Action taken by the `persisted.onUpdate` listener. -/
inductive SyncAction where
  | callInitSession (account : SessionAccount)
  | callClearCurrentAccount
deriving Repr, DecidableEq

/-- The `persisted.onUpdate` listener: given the externally-persisted
current account and the in-memory state, decide which session operation to
invoke. -/
def onPersistedUpdate (persistedCurrent : Option SessionAccount)
    (state : SessionState) : List SyncAction :=
  match persistedCurrent with
  | some p =>
    if some p.did ≠ state.currentAccount.map (·.did) then
      [SyncAction.callInitSession p]
    else []
  | none =>
    match state.currentAccount with
    | some _ => [SyncAction.callClearCurrentAccount]
    | none => []

/-- One Session Manager operation, with the observable outcome of any
backend call it performs supplied as data. -/
inductive SessionOp where
  | createAccountOp (call : Except Unit AgentResult)
  | loginOp (call : Except Unit AgentResult)
  | logoutOp
  | removeAccountOp (account : SessionAccount)
  | initSessionOp (account : SessionAccount) (call : Except Unit AgentResult)
  | selectAccountOp (account : SessionAccount) (call : Except Unit AgentResult)
  | resumeSessionOp (account : Option SessionAccount) (call : Except Unit AgentResult)
  | updateCurrentAccountOp (patch : AccountPatch)
  | persistCallbackOp (account : SessionAccount) (event : String)
      (session : Option AgentSession)
  | clearCurrentAccountOp
deriving Repr

/-- Apply one operation to the world, keeping the resulting in-memory state
(thrown errors leave the state as it was at the point of the throw). -/
def stepOp (op : SessionOp) (w : World) : World :=
  match op with
  | .createAccountOp call => (createAccount call w).1
  | .loginOp call => (login call w).1
  | .logoutOp => logout w
  | .removeAccountOp a => { w with state := removeAccount a w.state }
  | .initSessionOp a call => (initSession a call w).1
  | .selectAccountOp a call => (selectAccount a call w).1
  | .resumeSessionOp a call => (resumeSession a call w).1
  | .updateCurrentAccountOp p => { w with state := updateCurrentAccount p w.state }
  | .persistCallbackOp a e sess =>
      { w with state := (persistCallbackStep a e sess w.state).1 }
  | .clearCurrentAccountOp => clearCurrentAccount w

/-- Run a sequence of operations. -/
def runOps (ops : List SessionOp) (w : World) : World :=
  ops.foldl (fun w op => stepOp op w) w

/-- The provider's initial state: accounts loaded from persistence, logged
out, `isInitialLoad` set, the public agent active. -/
def initialWorld (persistedAccounts : List SessionAccount) : World :=
  { state :=
      { isInitialLoad := true
        isSwitchingAccounts := false
        accounts := persistedAccounts
        currentAccount := none }
    agent := .publicAgent }

/-- The roster's `did` column. -/
def didsOf (s : SessionState) : List String :=
  s.accounts.map (·.did)

/-- `did` is unique within the roster. -/
def didUnique (s : SessionState) : Prop :=
  (didsOf s).Nodup

/-- If the current account's `did` is still in the roster, the current
account sits at the head of the roster. -/
def mruHead (s : SessionState) : Prop :=
  ∀ c, s.currentAccount = some c → c.did ∈ didsOf s →
    s.accounts.head? = some c

/-- If the current account is set, its `did` exists in the roster. -/
def currentConsistent (s : SessionState) : Prop :=
  ∀ c, s.currentAccount = some c → c.did ∈ didsOf s

/-- The most recently activated account along a run: updated every time an
operation makes an account the `currentAccount` that was not current
before. Formalises the spec's phrase "most recently activated". -/
def lastActivatedFrom (ops : List SessionOp) (w : World)
    (acc : Option SessionAccount) : Option SessionAccount :=
  match ops with
  | [] => acc
  | op :: rest =>
    let w' := stepOp op w
    let acc' :=
      match w'.state.currentAccount with
      | some a => if w.state.currentAccount = some a then acc else some a
      | none => acc
    lastActivatedFrom rest w' acc'

/-- Fixture: a stored account used for concrete evaluations. -/
def acctA : SessionAccount :=
  { service := "https://example.test"
    did := "did:plc:alice"
    handle := "alice.test"
    email := some "alice@example.test"
    emailConfirmed := false
    refreshJwt := some "r1"
    accessJwt := some "a1" }

/-- Fixture: the backend session matching `acctA`. -/
def sessA : AgentSession :=
  { did := "did:plc:alice"
    handle := "alice.test"
    email := some "alice@example.test"
    emailConfirmed := some false
    accessJwt := some "a1"
    refreshJwt := some "r1" }

/-- Fixture: the agent-call outcome establishing `sessA`. -/
def callA : Except Unit AgentResult :=
  .ok { service := "https://example.test", session := some sessA }

/-- Fixture: a second stored account. -/
def acctB : SessionAccount :=
  { service := "https://example.test"
    did := "did:plc:bob"
    handle := "bob.test"
    email := some "bob@example.test"
    emailConfirmed := true
    refreshJwt := some "r2"
    accessJwt := some "a2" }

/-- Fixture: the backend session matching `acctB`. -/
def sessB : AgentSession :=
  { did := "did:plc:bob"
    handle := "bob.test"
    email := some "bob@example.test"
    emailConfirmed := some true
    accessJwt := some "a2"
    refreshJwt := some "r2" }

/-- Fixture: the agent-call outcome establishing `sessB`. -/
def callB : Except Unit AgentResult :=
  .ok { service := "https://example.test", session := some sessB }

/-- Fixture: an agent call that returned without error but with no session. -/
def callNoSession : Except Unit AgentResult :=
  .ok { service := "https://example.test", session := none }

end SessionSpec

namespace ImageSpec

/-- Width/height pair; JS numbers modelled as rationals. -/
structure Dimensions where
  width : ℚ
  height : ℚ
deriving Repr, DecidableEq

/-- The `aspectRatio` attribute values. -/
inductive AspectRatio where
  | ratio4x3
  | ratio1x1
  | ratio3x4
  | ratioNone
deriving Repr, DecidableEq

/-- The fields of `ImageModel` the dimension arithmetic reads. -/
structure ImageModel where
  width : ℚ
  height : ℚ
deriving Repr, DecidableEq

/-- `ImageModel.ratioMultipliers` (a lookup keyed by the aspect ratio). -/
def ratioMultipliers (self : ImageModel) (as : AspectRatio) : ℚ :=
  match as with
  | .ratio4x3 => 4 / 3
  | .ratio1x1 => 1
  | .ratio3x4 => 3 / 4
  | .ratioNone => self.width / self.height

/-- `ImageModel.getResizedDimensions`. -/
def getResizedDimensions (self : ImageModel) (as : AspectRatio)
    (maxSide : ℚ) : Dimensions :=
  let ratioMultiplier := ratioMultipliers self as
  if ratioMultiplier = 1 then
    { height := maxSide, width := maxSide }
  else if ratioMultiplier < 1 then
    { width := maxSide * ratioMultiplier, height := maxSide }
  else
    { width := maxSide, height := maxSide / ratioMultiplier }

/-- `ImageModel.getUploadDimensions`; `postImgMax` is the `POST_IMG_MAX`
constant (defined outside this repository slice), a parameter here. Note the
resize branch uses `postImgMax.width` even when `maxDimensions` differs. -/
def getUploadDimensions (postImgMax : Dimensions) (self : ImageModel)
    (dimensions : Dimensions) (maxDimensions : Dimensions)
    (as : AspectRatio) : Dimensions :=
  if dimensions.width < maxDimensions.width ∧
      dimensions.height < maxDimensions.height then
    { width := dimensions.width, height := dimensions.height }
  else
    getResizedDimensions self as postImgMax.width

end ImageSpec

namespace SessionSpec

/-- Filtering the roster preserves uniqueness of `did`s. -/
theorem nodup_dids_filter (l : List SessionAccount) (p : SessionAccount → Bool)
    (h : (l.map (·.did)).Nodup) : ((l.filter p).map (·.did)).Nodup :=
  List.Nodup.sublist ((List.filter_sublist l).map (·.did)) h

/-- The upsert shape (new head, same-`did` entries filtered out) preserves
uniqueness of `did`s. -/
theorem nodup_dids_upsert (a : SessionAccount) (l : List SessionAccount)
    (h : (l.map (·.did)).Nodup) :
    ((a :: l.filter (fun b => b.did ≠ a.did)).map (·.did)).Nodup := by
  simp only [List.map_cons, List.nodup_cons]
  refine ⟨?_, nodup_dids_filter _ _ h⟩
  intro hmem
  rcases List.mem_map.mp hmem with ⟨b, hb, hbd⟩
  rcases List.mem_filter.mp hb with ⟨-, hpb⟩
  have hb' : b.did ≠ a.did := by simpa using hpb
  exact hb' hbd

/-- After an upsert the current account (when set) heads the roster. -/
theorem mruHead_upsert (a : SessionAccount) (expired : Bool) (s : SessionState) :
    mruHead (upsertAccount a expired s) := by
  intro c hc _hm
  cases expired with
  | true => simp [upsertAccount] at hc
  | false =>
    simp only [upsertAccount, Option.some.injEq, if_neg Bool.false_ne_true] at hc
    subst hc
    rfl

/-- Both C1 invariants survive an upsert. -/
theorem upsert_c1 (a : SessionAccount) (expired : Bool) (s : SessionState)
    (h : didUnique s) :
    didUnique (upsertAccount a expired s) ∧ mruHead (upsertAccount a expired s) :=
  ⟨nodup_dids_upsert a s.accounts h, mruHead_upsert a expired s⟩

/-- Both C1 invariants survive `removeAccount`. -/
theorem remove_c1 (b : SessionAccount) (s : SessionState)
    (hu : didUnique s) (hm : mruHead s) :
    didUnique (removeAccount b s) ∧ mruHead (removeAccount b s) := by
  refine ⟨nodup_dids_filter _ _ hu, ?_⟩
  intro c hc hmem
  have hc' : s.currentAccount = some c := hc
  rcases List.mem_map.mp hmem with ⟨x, hx, hxd⟩
  rcases List.mem_filter.mp hx with ⟨hxl, hpx⟩
  have hcb : c.did ≠ b.did := by
    have hxb : x.did ≠ b.did := by simpa using hpx
    exact hxd ▸ hxb
  have hcs : c.did ∈ didsOf s := List.mem_map.mpr ⟨x, hxl, hxd⟩
  have hhead := hm c hc' hcs
  cases hacc : s.accounts with
  | nil => rw [hacc] at hhead; simp at hhead
  | cons y t =>
    rw [hacc] at hhead
    have hyc : y = c := by simpa using hhead
    subst hyc
    show (s.accounts.filter (fun a => a.did ≠ b.did)).head? = some y
    rw [hacc]
    simp [List.filter_cons, hcb]

/-- Both C1 invariants survive `logout`. -/
theorem logout_c1 (w : World) (hu : didUnique w.state) :
    didUnique (logout w).state ∧ mruHead (logout w).state := by
  constructor
  · have h1 : (logout w).state.accounts = w.state.accounts.map
        (fun a => { a with refreshJwt := none, accessJwt := none }) := rfl
    unfold didUnique didsOf
    rw [h1, List.map_map]
    exact hu
  · intro c hc _
    simp [logout, clearCurrentAccount] at hc

/-- Both C1 invariants survive `updateCurrentAccount`. -/
theorem update_c1 (p : AccountPatch) (s : SessionState)
    (hu : didUnique s) (hm : mruHead s) :
    didUnique (updateCurrentAccount p s) ∧ mruHead (updateCurrentAccount p s) := by
  cases hc : s.currentAccount with
  | none =>
    simp only [updateCurrentAccount, hc]
    exact ⟨hu, hm⟩
  | some cur =>
    simp only [updateCurrentAccount, hc]
    constructor
    · exact nodup_dids_upsert _ s.accounts hu
    · intro c hcc _
      have : some _ = some c := hcc
      cases this
      rfl

/-- `initSession` preserves the C1 invariants. -/
theorem initSession_c1 (a : SessionAccount) (call : Except Unit AgentResult)
    (w : World) (hu : didUnique w.state) (hm : mruHead w.state) :
    didUnique (initSession a call w).1.state ∧
      mruHead (initSession a call w).1.state := by
  cases call with
  | error e => exact ⟨hu, hm⟩
  | ok r =>
    cases hr : r.session with
    | none =>
      simp only [initSession, hr]
      exact ⟨hu, hm⟩
    | some sess =>
      simp only [initSession, hr]
      exact upsert_c1 _ false w.state hu

/-- `createAccount` preserves the C1 invariants. -/
theorem createAccount_c1 (call : Except Unit AgentResult) (w : World)
    (hu : didUnique w.state) (hm : mruHead w.state) :
    didUnique (createAccount call w).1.state ∧
      mruHead (createAccount call w).1.state := by
  cases call with
  | error e => exact ⟨hu, hm⟩
  | ok r =>
    cases hr : r.session with
    | none =>
      simp only [createAccount, hr]
      exact ⟨hu, hm⟩
    | some sess =>
      simp only [createAccount, hr]
      exact upsert_c1 _ false w.state hu

/-- `login` preserves the C1 invariants. -/
theorem login_c1 (call : Except Unit AgentResult) (w : World)
    (hu : didUnique w.state) (hm : mruHead w.state) :
    didUnique (login call w).1.state ∧ mruHead (login call w).1.state := by
  cases call with
  | error e => exact ⟨hu, hm⟩
  | ok r =>
    cases hr : r.session with
    | none =>
      simp only [login, hr]
      exact ⟨hu, hm⟩
    | some sess =>
      simp only [login, hr]
      exact upsert_c1 _ false w.state hu

/-- `selectAccount` preserves the C1 invariants (the switching flag plays no
role in them). -/
theorem selectAccount_c1 (a : SessionAccount) (call : Except Unit AgentResult)
    (w : World) (hu : didUnique w.state) (hm : mruHead w.state) :
    didUnique (selectAccount a call w).1.state ∧
      mruHead (selectAccount a call w).1.state := by
  exact initSession_c1 a call
    { w with state := { w.state with isSwitchingAccounts := true } } hu hm

/-- `resumeSession` preserves the C1 invariants. -/
theorem resumeSession_c1 (a : Option SessionAccount)
    (call : Except Unit AgentResult) (w : World)
    (hu : didUnique w.state) (hm : mruHead w.state) :
    didUnique (resumeSession a call w).1.state ∧
      mruHead (resumeSession a call w).1.state := by
  cases a with
  | none => exact ⟨hu, hm⟩
  | some acct => exact initSession_c1 acct call w hu hm

/-- Every Session Manager operation preserves the C1 invariants. -/
theorem stepOp_c1 (op : SessionOp) (w : World)
    (hu : didUnique w.state) (hm : mruHead w.state) :
    didUnique (stepOp op w).state ∧ mruHead (stepOp op w).state := by
  cases op with
  | createAccountOp call => exact createAccount_c1 call w hu hm
  | loginOp call => exact login_c1 call w hu hm
  | logoutOp => exact logout_c1 w hu
  | removeAccountOp a => exact remove_c1 a w.state hu hm
  | initSessionOp a call => exact initSession_c1 a call w hu hm
  | selectAccountOp a call => exact selectAccount_c1 a call w hu hm
  | resumeSessionOp a call => exact resumeSession_c1 a call w hu hm
  | updateCurrentAccountOp p => exact update_c1 p w.state hu hm
  | persistCallbackOp a e sess =>
    exact upsert_c1 _ _ w.state hu
  | clearCurrentAccountOp =>
    refine ⟨hu, ?_⟩
    intro c hc _
    simp [stepOp, clearCurrentAccount] at hc

/-- Running any operation sequence preserves the C1 invariants. -/
theorem runOps_c1 (ops : List SessionOp) (w : World)
    (hu : didUnique w.state) (hm : mruHead w.state) :
    didUnique (runOps ops w).state ∧ mruHead (runOps ops w).state := by
  induction ops generalizing w with
  | nil => exact ⟨hu, hm⟩
  | cons op rest ih =>
    have h := stepOp_c1 op w hu hm
    exact ih (stepOp op w) h.1 h.2

/-- After an upsert the current account (when set) has its `did` in the
roster. -/
theorem upsert_c2 (a : SessionAccount) (expired : Bool) (s : SessionState) :
    currentConsistent (upsertAccount a expired s) := by
  intro c hc
  cases expired with
  | true => simp [upsertAccount] at hc
  | false =>
    simp only [upsertAccount, Option.some.injEq, if_neg Bool.false_ne_true] at hc
    subst hc
    exact List.mem_map.mpr ⟨_, List.mem_cons_self _ _, rfl⟩

/-- `removeAccount` keeps the current account's `did` in the roster, as long
as the removed `did` is not the current one. -/
theorem remove_c2 (b : SessionAccount) (s : SessionState)
    (hinv : currentConsistent s)
    (hne : ∀ c, s.currentAccount = some c → b.did ≠ c.did) :
    currentConsistent (removeAccount b s) := by
  intro c hc
  have hc' : s.currentAccount = some c := hc
  rcases List.mem_map.mp (hinv c hc') with ⟨x, hx, hxd⟩
  refine List.mem_map.mpr ⟨x, List.mem_filter.mpr ⟨hx, ?_⟩, hxd⟩
  have hx' : x.did ≠ b.did := by
    rw [hxd]
    intro h
    exact hne c hc' h.symm
  exact decide_eq_true hx'

/-- `updateCurrentAccount` keeps the current account's `did` in the roster. -/
theorem update_c2 (p : AccountPatch) (s : SessionState)
    (hinv : currentConsistent s) :
    currentConsistent (updateCurrentAccount p s) := by
  cases hc : s.currentAccount with
  | none =>
    simp only [updateCurrentAccount, hc]
    exact hinv
  | some cur =>
    simp only [updateCurrentAccount, hc]
    intro c hcc
    have hcc' : some _ = some c := hcc
    cases hcc'
    exact List.mem_map.mpr ⟨_, List.mem_cons_self _ _, rfl⟩

/-- `initSession` keeps the current account's `did` in the roster. -/
theorem initSession_c2 (a : SessionAccount) (call : Except Unit AgentResult)
    (w : World) (hinv : currentConsistent w.state) :
    currentConsistent (initSession a call w).1.state := by
  cases call with
  | error e => exact hinv
  | ok r =>
    cases hr : r.session with
    | none =>
      simp only [initSession, hr]
      exact hinv
    | some sess =>
      simp only [initSession, hr]
      exact upsert_c2 _ false w.state

/-- `createAccount` keeps the current account's `did` in the roster. -/
theorem createAccount_c2 (call : Except Unit AgentResult) (w : World)
    (hinv : currentConsistent w.state) :
    currentConsistent (createAccount call w).1.state := by
  cases call with
  | error e => exact hinv
  | ok r =>
    cases hr : r.session with
    | none =>
      simp only [createAccount, hr]
      exact hinv
    | some sess =>
      simp only [createAccount, hr]
      exact upsert_c2 _ false w.state

/-- `login` keeps the current account's `did` in the roster. -/
theorem login_c2 (call : Except Unit AgentResult) (w : World)
    (hinv : currentConsistent w.state) :
    currentConsistent (login call w).1.state := by
  cases call with
  | error e => exact hinv
  | ok r =>
    cases hr : r.session with
    | none =>
      simp only [login, hr]
      exact hinv
    | some sess =>
      simp only [login, hr]
      exact upsert_c2 _ false w.state

/-- Every operation except removing the active account preserves the
current-account-in-roster invariant. -/
theorem stepOp_c2 (op : SessionOp) (w : World)
    (hinv : currentConsistent w.state)
    (hop : ∀ a c, op = SessionOp.removeAccountOp a →
      w.state.currentAccount = some c → a.did ≠ c.did) :
    currentConsistent (stepOp op w).state := by
  cases op with
  | createAccountOp call => exact createAccount_c2 call w hinv
  | loginOp call => exact login_c2 call w hinv
  | logoutOp =>
    intro c hc
    simp [stepOp, logout, clearCurrentAccount] at hc
  | removeAccountOp a =>
    exact remove_c2 a w.state hinv (fun c hc => hop a c rfl hc)
  | initSessionOp a call => exact initSession_c2 a call w hinv
  | selectAccountOp a call =>
    exact initSession_c2 a call
      { w with state := { w.state with isSwitchingAccounts := true } } hinv
  | resumeSessionOp a call =>
    cases a with
    | none => exact hinv
    | some acct => exact initSession_c2 acct call w hinv
  | updateCurrentAccountOp p => exact update_c2 p w.state hinv
  | persistCallbackOp a e sess => exact upsert_c2 _ _ w.state
  | clearCurrentAccountOp =>
    intro c hc
    simp [stepOp, clearCurrentAccount] at hc

/-- C1, counterexample: the claim as stated is false. Starting logged out
with an empty roster, `login` (activating Alice's account) followed by
`removeAccount` of that same account leaves Alice as the most recently
activated account while the roster is empty, so she is not at the head. -/
theorem claimC1_counterexample :
    lastActivatedFrom [SessionOp.loginOp callA, SessionOp.removeAccountOp acctA]
        (initialWorld []) none = some acctA ∧
      (runOps [SessionOp.loginOp callA, SessionOp.removeAccountOp acctA]
        (initialWorld [])).state.accounts.head? ≠ some acctA := by
  constructor
  · decide
  · decide

/-- C1 (amended): for every sequence of Session Manager operations
(`createAccount`, `login`, `logout`, `removeAccount`, `initSession`,
`selectAccount`, `resumeSession`, `updateCurrentAccount`,
`clearCurrentAccount`, and the persist-callback upsert) started from the
initial state with `did`-unique persisted accounts, the resulting accounts
list contains at most one entry per distinct `did`; and whenever the most
recently activated account is still the set `currentAccount` with its `did`
in the roster, it is at the head of the list (removing the active account
can strand it outside the roster, so the unguarded head property fails). -/
theorem claimC1 (ops : List SessionOp) (accts : List SessionAccount)
    (h : (accts.map (·.did)).Nodup) :
    didUnique (runOps ops (initialWorld accts)).state ∧
      mruHead (runOps ops (initialWorld accts)).state := by
  have h0u : didUnique (initialWorld accts).state := h
  have h0m : mruHead (initialWorld accts).state := by
    intro c hc _
    simp [initialWorld] at hc
  exact runOps_c1 ops (initialWorld accts) h0u h0m

/-- Witness for C1 at a concrete run. -/
theorem claimC1_witness :
    didUnique (runOps [SessionOp.loginOp callA] (initialWorld [])).state ∧
      mruHead (runOps [SessionOp.loginOp callA] (initialWorld [])).state :=
  claimC1 [SessionOp.loginOp callA] [] (by decide)

/-- C2, counterexample: the claim as stated is false. `login` then
`removeAccount` of the logged-in account reaches a state where
`currentAccount` is still Alice but no account with her `did` remains in
the roster, so `removeAccount` does not preserve the invariant. -/
theorem claimC2_counterexample :
    (runOps [SessionOp.loginOp callA, SessionOp.removeAccountOp acctA]
        (initialWorld [])).state.currentAccount = some acctA ∧
      acctA.did ∉ didsOf (runOps [SessionOp.loginOp callA,
        SessionOp.removeAccountOp acctA] (initialWorld [])).state := by
  constructor
  · decide
  · decide

/-- C2 (amended): every Session Manager operation preserves the invariant
"if `currentAccount` is set then an account with the same `did` exists in
`accounts`", except `removeAccount` of the active account itself: it is
preserved by `removeAccount` only when the removed `did` differs from the
current account's `did` (removing the active account strands
`currentAccount` outside the roster). -/
theorem claimC2 (op : SessionOp) (w : World)
    (hinv : currentConsistent w.state)
    (hop : ∀ a c, op = SessionOp.removeAccountOp a →
      w.state.currentAccount = some c → a.did ≠ c.did) :
    currentConsistent (stepOp op w).state :=
  stepOp_c2 op w hinv hop

/-- Witness for C2 at a concrete operation. -/
theorem claimC2_witness :
    currentConsistent (stepOp SessionOp.logoutOp (initialWorld [acctA])).state :=
  claimC2 SessionOp.logoutOp (initialWorld [acctA])
    (fun _ hc => nomatch hc) (fun _ _ h => nomatch h)

/-- C3, counterexample: the claim as stated is false. When the client
provides no session (the "refresh produced no new token" case), the
reconciled record's tokens do not fall back to the prior account's values:
they become absent, although the prior account held tokens. -/
theorem claimC3_counterexample :
    acctA.accessJwt = some "a1" ∧ acctA.refreshJwt = some "r1" ∧
      (persistSession acctA "expired" none).refreshedAccount.accessJwt = none ∧
      (persistSession acctA "expired" none).refreshedAccount.refreshJwt = none ∧
      (persistSession acctA "expired" none).refreshedAccount.accessJwt ≠
        acctA.accessJwt := by
  refine ⟨rfl, rfl, rfl, rfl, ?_⟩
  decide

/-- C3 (amended): the reconciled record forwarded by the
persist-session handler takes the new session's tokens when the client
provides a session, and sets both tokens to absent when the client provides
none — there is no fallback to the prior account's token values (prior
values are kept only for the identity fields). -/
theorem claimC3 (account : SessionAccount) (event : String)
    (session : Option AgentSession) :
    (∀ sess, session = some sess →
        (persistSession account event session).refreshedAccount.accessJwt =
            sess.accessJwt ∧
          (persistSession account event session).refreshedAccount.refreshJwt =
            sess.refreshJwt) ∧
      (session = none →
        (persistSession account event session).refreshedAccount.accessJwt =
            none ∧
          (persistSession account event session).refreshedAccount.refreshJwt =
            none) := by
  constructor
  · rintro sess rfl
    exact ⟨rfl, rfl⟩
  · rintro rfl
    exact ⟨rfl, rfl⟩

/-- Witness for C3 at a concrete input. -/
theorem claimC3_witness :
    (persistSession acctA "expired" none).refreshedAccount.accessJwt = none ∧
      (persistSession acctA "expired" none).refreshedAccount.refreshJwt = none :=
  (claimC3 acctA "expired" none).2 rfl

/-- C4: the `expired` flag is true exactly when the event is neither
"create" nor "update"; when expired, the subsequent upsert unsets
`currentAccount` while the reconciled account (carrying the updated
handle/email fields) is placed at the head of the roster, and the
session-dropped notification fires exactly once; when not expired it does
not fire at all. -/
theorem claimC4 (account : SessionAccount) (event : String)
    (session : Option AgentSession) (s : SessionState) :
    ((persistSession account event session).expired = true ↔
        ¬(event = "create" ∨ event = "update")) ∧
      ((persistSession account event session).expired = true →
        (persistCallbackStep account event session s).1.currentAccount = none ∧
          (persistCallbackStep account event session s).1.accounts.head? =
            some (persistSession account event session).refreshedAccount ∧
          (persistSession account event session).refreshedAccount ∈
            (persistCallbackStep account event session s).1.accounts ∧
          (persistCallbackStep account event session s).2 = 1) ∧
      ((persistSession account event session).expired = false →
        (persistCallbackStep account event session s).2 = 0) := by
  refine ⟨?_, ?_, ?_⟩
  · dsimp only [persistSession]
    simp [not_or]
  · intro hexp
    have hexp' : (!(event == "create" || event == "update")) = true := hexp
    dsimp only [persistCallbackStep, persistSession, upsertAccount]
    rw [hexp']
    exact ⟨rfl, rfl, List.mem_cons_self _ _, rfl⟩
  · intro hexp
    have hexp' : (!(event == "create" || event == "update")) = false := hexp
    dsimp only [persistCallbackStep, persistSession]
    rw [hexp']
    rfl

/-- Witness for C4 at a concrete expired event. -/
theorem claimC4_witness :
    (persistCallbackStep acctA "expired" none
        (initialWorld [acctB]).state).1.currentAccount = none ∧
      (persistCallbackStep acctA "expired" none
        (initialWorld [acctB]).state).2 = 1 := by
  have h := (claimC4 acctA "expired" none (initialWorld [acctB]).state).2.1
    (by decide)
  exact ⟨h.1, h.2.2.2⟩

/-- C5: `clearCurrentAccount` leaves the roster (hence every stored token)
unchanged, only unsetting `currentAccount`, swapping in the public agent
and leaving the flags alone; `logout` unsets `currentAccount` and strips
both tokens from every account remaining in the roster, whose `did`s are
preserved. -/
theorem claimC5 (w : World) :
    ((clearCurrentAccount w).state.accounts = w.state.accounts ∧
        (clearCurrentAccount w).state.currentAccount = none ∧
        (clearCurrentAccount w).agent = ActiveAgent.publicAgent ∧
        (clearCurrentAccount w).state.isInitialLoad = w.state.isInitialLoad ∧
        (clearCurrentAccount w).state.isSwitchingAccounts =
          w.state.isSwitchingAccounts) ∧
      ((logout w).state.currentAccount = none ∧
        (logout w).state.accounts.map (·.did) =
          w.state.accounts.map (·.did) ∧
        (logout w).state.accounts.all
          (fun a => a.accessJwt.isNone && a.refreshJwt.isNone) = true) := by
  refine ⟨⟨rfl, rfl, rfl, rfl, rfl⟩, rfl, ?_, ?_⟩
  · show ((w.state.accounts.map
        (fun a => { a with refreshJwt := none, accessJwt := none })).map
          (·.did)) = w.state.accounts.map (·.did)
    rw [List.map_map]
    rfl
  · have h1 : (logout w).state.accounts = w.state.accounts.map
        (fun a => { a with refreshJwt := none, accessJwt := none }) := rfl
    rw [h1, List.all_map]
    simp [Function.comp]

/-- C6: assuming the backend echoes the requested account's `did` on
resume, `selectAccount` either fails, leaving `currentAccount`, the roster
and the active agent exactly as before the call, or succeeds with
`currentAccount` updated to the requested account (same `did`) at the head
of the roster — never a partial switch — and in both cases
`isSwitchingAccounts` is false when the call completes. -/
theorem claimC6 (account : SessionAccount) (call : Except Unit AgentResult)
    (w : World)
    (hEcho : ∀ r sess, call = Except.ok r → r.session = some sess →
      sess.did = account.did) :
    ((selectAccount account call w).1.state.isSwitchingAccounts = false) ∧
      ((selectAccount account call w).2.isSome = true →
        (selectAccount account call w).1.state.currentAccount =
            w.state.currentAccount ∧
          (selectAccount account call w).1.state.accounts =
            w.state.accounts ∧
          (selectAccount account call w).1.agent = w.agent) ∧
      ((selectAccount account call w).2 = none →
        (selectAccount account call w).1.state.currentAccount.map (·.did) =
            some account.did ∧
          (selectAccount account call w).1.state.accounts.head? =
            (selectAccount account call w).1.state.currentAccount) := by
  cases call with
  | error e =>
    refine ⟨rfl, fun _ => ⟨rfl, rfl, rfl⟩, fun hnone => ?_⟩
    exact absurd hnone (by simp [selectAccount, initSession])
  | ok r =>
    cases hr : r.session with
    | none =>
      have hred : selectAccount account (Except.ok r) w =
          ({ w with state := { w.state with isSwitchingAccounts := false } },
            some (.establishment "initSession")) := by
        simp only [selectAccount, initSession, hr]
      rw [hred]
      refine ⟨rfl, fun _ => ⟨rfl, rfl, rfl⟩, fun hnone => ?_⟩
      exact absurd hnone (by simp)
    | some sess =>
      have hdid : sess.did = account.did := hEcho r sess rfl hr
      have hred : selectAccount account (Except.ok r) w =
          ({ state :=
              { isInitialLoad := w.state.isInitialLoad
                isSwitchingAccounts := false
                accounts := accountFromSession r sess ::
                  w.state.accounts.filter
                    (fun a => a.did ≠ (accountFromSession r sess).did)
                currentAccount := some (accountFromSession r sess) }
             agent := .established r.service r.session }, none) := by
        simp only [selectAccount, initSession, hr, upsertAccount,
          if_neg Bool.false_ne_true]
      rw [hred]
      refine ⟨rfl, fun hsome => absurd hsome (by simp), fun _ => ⟨?_, rfl⟩⟩
      simpa using hdid

/-- Witness for C6 at a concrete successful switch. -/
theorem claimC6_witness :
    (selectAccount acctA callA (initialWorld [acctB])).1.state.isSwitchingAccounts
        = false ∧
      (selectAccount acctA callA
        (initialWorld [acctB])).1.state.currentAccount.map (·.did) =
        some acctA.did := by
  have h := claimC6 acctA callA (initialWorld [acctB]) (by
    intro r sess hr hs
    injection hr with h1
    subst h1
    injection hs with h2
    subst h2
    rfl)
  exact ⟨h.1, (h.2.2 rfl).1⟩

/-- C7: `resumeSession` never propagates an error to its caller (any
`initSession` failure is swallowed and logged), and it executes the
`finally` assignment clearing `isInitialLoad` exactly once in every case:
resume success, resume failure, and no account supplied. -/
theorem claimC7 (account : Option SessionAccount)
    (call : Except Unit AgentResult) (w : World) :
    (resumeSession account call w).2.1 = none ∧
      (resumeSession account call w).2.2 = 1 ∧
      (resumeSession account call w).1.state.isInitialLoad = false := by
  cases account with
  | none => exact ⟨rfl, rfl, rfl⟩
  | some a => exact ⟨rfl, rfl, rfl⟩

/-- C8: `createAccount`, `login` and `initSession` each surface an
establishment error exactly when the backend call returned without error
but the client reports no session; on any error path the in-memory world
(accounts, `currentAccount`, active agent) is left unchanged by that
operation. -/
theorem claimC8 (account : SessionAccount) (call : Except Unit AgentResult)
    (w : World) :
    (((∃ m, (createAccount call w).2 = some (SessionError.establishment m)) ↔
        (∃ r, call = Except.ok r ∧ r.session = none)) ∧
      ((createAccount call w).2.isSome = true → (createAccount call w).1 = w)) ∧
    (((∃ m, (login call w).2 = some (SessionError.establishment m)) ↔
        (∃ r, call = Except.ok r ∧ r.session = none)) ∧
      ((login call w).2.isSome = true → (login call w).1 = w)) ∧
    (((∃ m, (initSession account call w).2 =
          some (SessionError.establishment m)) ↔
        (∃ r, call = Except.ok r ∧ r.session = none)) ∧
      ((initSession account call w).2.isSome = true →
        (initSession account call w).1 = w)) := by
  cases call with
  | error e =>
    refine ⟨⟨?_, fun _ => rfl⟩, ⟨?_, fun _ => rfl⟩, ⟨?_, fun _ => rfl⟩⟩ <;>
      · constructor
        · rintro ⟨m, hm⟩
          exact absurd hm (by simp [createAccount, login, initSession])
        · rintro ⟨r, hr, -⟩
          exact absurd hr (by simp)
  | ok r =>
    cases hr : r.session with
    | none =>
      refine ⟨⟨?_, ?_⟩, ⟨?_, ?_⟩, ⟨?_, ?_⟩⟩
      · constructor
        · intro _
          exact ⟨r, rfl, hr⟩
        · intro _
          exact ⟨"createAccount", by simp [createAccount, hr]⟩
      · intro _
        simp [createAccount, hr]
      · constructor
        · intro _
          exact ⟨r, rfl, hr⟩
        · intro _
          exact ⟨"login", by simp [login, hr]⟩
      · intro _
        simp [login, hr]
      · constructor
        · intro _
          exact ⟨r, rfl, hr⟩
        · intro _
          exact ⟨"initSession", by simp [initSession, hr]⟩
      · intro _
        simp [initSession, hr]
    | some sess =>
      refine ⟨⟨?_, ?_⟩, ⟨?_, ?_⟩, ⟨?_, ?_⟩⟩
      · constructor
        · rintro ⟨m, hm⟩
          exact absurd hm (by simp [createAccount, hr])
        · rintro ⟨r', hr', hs'⟩
          injection hr' with h1
          subst h1
          rw [hr] at hs'
          exact absurd hs' (by simp)
      · intro hsome
        exact absurd hsome (by simp [createAccount, hr])
      · constructor
        · rintro ⟨m, hm⟩
          exact absurd hm (by simp [login, hr])
        · rintro ⟨r', hr', hs'⟩
          injection hr' with h1
          subst h1
          rw [hr] at hs'
          exact absurd hs' (by simp)
      · intro hsome
        exact absurd hsome (by simp [login, hr])
      · constructor
        · rintro ⟨m, hm⟩
          exact absurd hm (by simp [initSession, hr])
        · rintro ⟨r', hr', hs'⟩
          injection hr' with h1
          subst h1
          rw [hr] at hs'
          exact absurd hs' (by simp)
      · intro hsome
        exact absurd hsome (by simp [initSession, hr])

/-- Witness for C8: a call that returned with no session yields the
establishment error and leaves the world unchanged. -/
theorem claimC8_witness :
    (∃ m, (createAccount callNoSession (initialWorld [])).2 =
        some (SessionError.establishment m)) ∧
      (createAccount callNoSession (initialWorld [])).1 = initialWorld [] := by
  have h := (claimC8 acctA callNoSession (initialWorld [])).1
  exact ⟨h.1.mpr ⟨{ service := "https://example.test", session := none },
    rfl, rfl⟩, h.2 (by decide)⟩

/-- C9: on an external persistence update, the listener calls `initSession`
exactly once for the persisted current account when its `did` differs from
the in-memory one (including when no in-memory current account is set),
calls `clearCurrentAccount` when the persisted record has no current
account but the in-memory state does, and does nothing when the `did`s
agree or neither side has a current account. -/
theorem claimC9 (persistedCurrent : Option SessionAccount)
    (state : SessionState) :
    (∀ p, persistedCurrent = some p →
        (state.currentAccount.map (·.did) ≠ some p.did →
          onPersistedUpdate persistedCurrent state =
            [SyncAction.callInitSession p]) ∧
        (state.currentAccount.map (·.did) = some p.did →
          onPersistedUpdate persistedCurrent state = [])) ∧
      (persistedCurrent = none →
        (state.currentAccount.isSome = true →
          onPersistedUpdate persistedCurrent state =
            [SyncAction.callClearCurrentAccount]) ∧
        (state.currentAccount = none →
          onPersistedUpdate persistedCurrent state = [])) := by
  constructor
  · rintro p rfl
    constructor
    · intro hne
      have h : some p.did ≠ state.currentAccount.map (·.did) := Ne.symm hne
      simp [onPersistedUpdate, h]
    · intro heq
      simp [onPersistedUpdate, heq]
  · rintro rfl
    constructor
    · intro hsome
      rcases Option.isSome_iff_exists.mp hsome with ⟨c, hc⟩
      simp [onPersistedUpdate, hc]
    · intro hnone
      simp [onPersistedUpdate, hnone]

/-- Witness for C9: a persisted current account with a fresh `did` while
logged out in memory triggers exactly one `initSession` call. -/
theorem claimC9_witness :
    onPersistedUpdate (some acctB) (initialWorld [acctA]).state =
      [SyncAction.callInitSession acctB] :=
  ((claimC9 (some acctB) (initialWorld [acctA]).state).1 acctB rfl).1
    (by decide)

end SessionSpec

namespace ImageSpec

/-- With a positive maximum side and a positive ratio multiplier, the
resized dimensions have their longer side equal to the maximum and their
width-to-height ratio equal to the multiplier. -/
theorem getResizedDimensions_spec (self : ImageModel) (as : AspectRatio)
    (maxSide : ℚ) (hmax : 0 < maxSide)
    (hm : 0 < ratioMultipliers self as) :
    max (getResizedDimensions self as maxSide).width
        (getResizedDimensions self as maxSide).height = maxSide ∧
      (getResizedDimensions self as maxSide).width /
          (getResizedDimensions self as maxSide).height =
        ratioMultipliers self as := by
  by_cases h1 : ratioMultipliers self as = 1
  · simp only [getResizedDimensions, if_pos h1]
    constructor
    · exact max_self maxSide
    · rw [div_self (ne_of_gt hmax), h1]
  · by_cases h2 : ratioMultipliers self as < 1
    · simp only [getResizedDimensions, if_neg h1, if_pos h2]
      constructor
      · have hle : maxSide * ratioMultipliers self as ≤ maxSide := by
          calc maxSide * ratioMultipliers self as ≤ maxSide * 1 :=
                mul_le_mul_of_nonneg_left (le_of_lt h2) (le_of_lt hmax)
            _ = maxSide := mul_one maxSide
        exact max_eq_right hle
      · exact mul_div_cancel_left₀ _ (ne_of_gt hmax)
    · simp only [getResizedDimensions, if_neg h1, if_neg h2]
      constructor
      · have h1le : 1 ≤ ratioMultipliers self as := le_of_not_lt h2
        have hle : maxSide / ratioMultipliers self as ≤ maxSide :=
          div_le_self (le_of_lt hmax) h1le
        exact max_eq_left hle
      · rw [div_div_eq_mul_div, mul_comm maxSide (ratioMultipliers self as),
          mul_div_assoc, div_self (ne_of_gt hmax), mul_one]

/-- C10: `getUploadDimensions` returns its input unchanged exactly on the
strict branch condition `width < maxWidth ∧ height < maxHeight` (so a side
equal to the maximum triggers resizing); otherwise it returns
`getResizedDimensions as POST_IMG_MAX.width`, whose longer side equals that
maximum and whose width-to-height ratio equals the selected aspect-ratio
multiplier (4:3 → 4/3, 1:1 → 1, 3:4 → 3/4, None → the image's own
width/height). Positivity of the maximum and of the image sides is assumed;
JS numbers are modelled as rationals. -/
theorem claimC10 (postImgMax : Dimensions) (self : ImageModel)
    (dimensions maxDimensions : Dimensions) (as : AspectRatio)
    (hmax : 0 < postImgMax.width) (hw : 0 < self.width)
    (hh : 0 < self.height) :
    (dimensions.width < maxDimensions.width ∧
        dimensions.height < maxDimensions.height →
      getUploadDimensions postImgMax self dimensions maxDimensions as =
        dimensions) ∧
      (¬(dimensions.width < maxDimensions.width ∧
          dimensions.height < maxDimensions.height) →
        getUploadDimensions postImgMax self dimensions maxDimensions as =
            getResizedDimensions self as postImgMax.width ∧
          max (getResizedDimensions self as postImgMax.width).width
              (getResizedDimensions self as postImgMax.width).height =
            postImgMax.width ∧
          (getResizedDimensions self as postImgMax.width).width /
              (getResizedDimensions self as postImgMax.width).height =
            ratioMultipliers self as) := by
  have hm : 0 < ratioMultipliers self as := by
    cases as with
    | ratio4x3 => norm_num [ratioMultipliers]
    | ratio1x1 => norm_num [ratioMultipliers]
    | ratio3x4 => norm_num [ratioMultipliers]
    | ratioNone => exact div_pos hw hh
  constructor
  · intro h
    simp only [getUploadDimensions, if_pos h]
  · intro h
    refine ⟨by simp only [getUploadDimensions, if_neg h], ?_, ?_⟩
    · exact (getResizedDimensions_spec self as postImgMax.width hmax hm).1
    · exact (getResizedDimensions_spec self as postImgMax.width hmax hm).2

/-- Witness for C10: a 3000×100 input against a 2000×2000 maximum with the
4:3 ratio resizes to 2000×1500. -/
theorem claimC10_witness :
    getUploadDimensions (Dimensions.mk 2000 2000) (ImageModel.mk 100 100)
        (Dimensions.mk 3000 100) (Dimensions.mk 2000 2000)
        AspectRatio.ratio4x3 =
      getResizedDimensions (ImageModel.mk 100 100) AspectRatio.ratio4x3 2000 ∧
      max (getResizedDimensions (ImageModel.mk 100 100)
            AspectRatio.ratio4x3 2000).width
          (getResizedDimensions (ImageModel.mk 100 100)
            AspectRatio.ratio4x3 2000).height = 2000 ∧
      (getResizedDimensions (ImageModel.mk 100 100)
            AspectRatio.ratio4x3 2000).width /
          (getResizedDimensions (ImageModel.mk 100 100)
            AspectRatio.ratio4x3 2000).height =
        ratioMultipliers (ImageModel.mk 100 100) AspectRatio.ratio4x3 :=
  (claimC10 (Dimensions.mk 2000 2000) (ImageModel.mk 100 100)
      (Dimensions.mk 3000 100) (Dimensions.mk 2000 2000)
      AspectRatio.ratio4x3 (by norm_num) (by norm_num) (by norm_num)).2
    (by
      intro hcon
      exact absurd hcon.1 (by norm_num))

end ImageSpec
